import Mathlib

/-!
Verification of `src/lib/code-generator.js` (the Deno code generator).

The whole module is embedded shallowly:

* The configuration object (the result of `mergeOptions(defaultOptions, options)`,
  lines 19-30 and 264-275) becomes the structure `Options`.  The four regex
  options are fixed at their default values `/\*(?!\+)/g`, `/#(?!\+)/g`,
  `/\*\+/g`, `/#\+/g`; the regex-driven scans of the source are embedded as
  explicit character-list scanners that implement exactly those four regexes.
* Strings become `List Char`; patterns and codes are character lists.
* `Math.random()` draws become an explicit stream `stream : ℕ → ℕ` together
  with a cursor position; `Math.floor(Math.random() * len)` ranges over exactly
  `0, ..., len - 1` when `len > 0` (and is `0` when `len = 0`), which is
  modelled by `randomIndex len (stream pos)`.
* The unbounded `while` loop of `generateCodes` (lines 82-102) takes explicit
  fuel; exhausting the fuel yields `GenResult.outOfFuel` (the JS loop would
  simply keep running).
* Thrown `Error`s become `GenResult.error`; the payload of the capacity error
  message (lines 160-165) is carried structurally by `CGError.capacity`.
* The object used as a string set (`convertToObject`, membership through
  `hasOwnProperty`) is modelled as a list of keys with list membership,
  abstracting JS property-table semantics.
* The two variable-length regexes (`alphanumericMoreRegex`, `numericMoreRegex`)
  are the only regex objects whose `lastIndex` state is ever observable: they
  are consulted through `RegExp.test` in `hasMorePlaceholder` (line 254), and
  `.test` on a `g`-flagged regex starts searching at `lastIndex` and advances
  it.  That state is passed explicitly as a pair of naturals.  All other regex
  uses in the source go through `String.match` / `String.replace`, which reset
  `lastIndex` to `0` and leave it at `0`.
-/

namespace CodeGen

/-- The merged configuration object (`defaultOptions`, lines 19-30, merged with
caller options by `mergeOptions`, lines 264-275).  Regex fields are fixed to
their defaults and therefore omitted. -/
structure Options where
  alphanumericChars : List Char
  numericChars : List Char
  sparsity : ℚ
  existingCodesLoader : List Char → List (List Char)

/-- Lines 19-30: the default options object. -/
def defaultOptions : Options where
  alphanumericChars := ("123456789ABCDEFGHJKLMNPQRSTUVWXYZ").data
  numericChars := ("0123456789").data
  sparsity := 1
  existingCodesLoader := fun _ => []

/-- Line 58: `if (options.sparsity < 1) options.sparsity = 1;`. -/
def clampSparsity (o : Options) : Options :=
  if o.sparsity < 1 then { o with sparsity := 1 } else o

/-- Line 59: `howMany = howMany || 1;` — an omitted argument (`undefined`) and
`0` are both falsy and coerced to `1`. -/
def effectiveHowMany : Option ℕ → ℕ
  | none => 1
  | some 0 => 1
  | some (n + 1) => n + 1

/-- `Math.ceil(n * s)` for a natural `n` and a rational `s` (lines 60 and 65),
computed directly on the numerator and denominator of `s` so that the kernel
can evaluate it: `⌈a / d⌉ = -((-a) / d)` with euclidean integer division.
`jsCeilMulNat_eq` below proves it equal to `(Int.ceil (n * s)).toNat`. -/
def jsCeilMulNat (n : ℕ) (s : ℚ) : ℕ :=
  (-(-((n : ℤ) * s.num) / (s.den : ℤ))).toNat

/-- `Math.round(n / s)` for a natural `n` and a rational `s > 0` (line 162).
JS rounds half toward positive infinity: `round(x) = ⌊x + 1/2⌋`, and
`n / s + 1/2 = (2·n·s.den + s.num) / (2·s.num)`, again computed with
euclidean integer division so the kernel can evaluate it.
`jsRoundDivNat_eq` below proves it equal to `⌊n / s + 1/2⌋`. -/
def jsRoundDivNat (n : ℕ) (s : ℚ) : ℤ :=
  (2 * (n : ℤ) * (s.den : ℤ) + s.num) / (2 * s.num)

/-- Number of matches of the regex `/t0(?!t1)/g` in a character list: the
occurrences of `t0` that are not immediately followed by `t1`.  With
`t0 = '#'`, `t1 = '+'` this is `pattern.match(options.numericRegex)`, with
`t0 = '*'` it is `pattern.match(options.alphanumericRegex)` (line 217). -/
def countSoloMatches (t0 t1 : Char) : List Char → ℕ
  | [] => 0
  | [c] => if c = t0 then 1 else 0
  | c :: d :: rest =>
      if c = t0 ∧ d ≠ t1 then 1 + countSoloMatches t0 t1 (d :: rest)
      else countSoloMatches t0 t1 (d :: rest)

/-- Number of matches of the regex `/t0t1/g` (non-overlapping, left to right).
With `t0 = '#'`, `t1 = '+'` this is `pattern.match(options.numericMoreRegex)`,
with `t0 = '*'` it is `pattern.match(options.alphanumericMoreRegex)`
(lines 178-179). -/
def countPairMatches (t0 t1 : Char) : List Char → ℕ
  | [] => 0
  | [_] => 0
  | c :: d :: rest =>
      if c = t0 ∧ d = t1 then 1 + countPairMatches t0 t1 rest
      else countPairMatches t0 t1 (d :: rest)

/-- Index of the first match of `/t0t1/` in a character list, if any. -/
def findPairIdx (t0 t1 : Char) : List Char → Option ℕ
  | [] => none
  | [_] => none
  | c :: d :: rest =>
      if c = t0 ∧ d = t1 then some 0
      else (findPairIdx t0 t1 (d :: rest)).map (fun i => i + 1)

/-- `RegExp.prototype.test` on a `g`-flagged two-character-token regex:
searching starts at `lastIndex`; on success `lastIndex` moves past the match
and the result is `true`; on failure `lastIndex` resets to `0`. -/
def testG (t0 t1 : Char) (p : List Char) (lastIndex : ℕ) : Bool × ℕ :=
  match findPairIdx t0 t1 (p.drop lastIndex) with
  | some i => (true, lastIndex + i + 2)
  | none => (false, 0)

/-- Lines 253-255: `hasMorePlaceholder`.  The state is the pair of `lastIndex`
values of `alphanumericMoreRegex` and `numericMoreRegex` (in that order); `||`
short-circuits, so the numeric regex is only consulted when the alphanumeric
test fails. -/
def hasMorePlaceholder (p : List Char) (st : ℕ × ℕ) : Bool × ℕ × ℕ :=
  let a := testG '*' '+' p st.1
  if a.1 then (true, a.2, st.2)
  else
    let n := testG '#' '+' p st.2
    (n.1, a.2, n.2)

/-- Lines 216-219: `countPermutations`; `pattern.match` yields `null` (hence
`0`) when there are no matches, otherwise `chars.length ^ matches.length`. -/
def countPermutations (matchCount : ℕ) (chars : List Char) : ℕ :=
  if matchCount = 0 then 0 else chars.length ^ matchCount

/-- Lines 207-214: `countNonRepeatingPermutations`. -/
def countNonRepeatingPermutations (pattern : List Char) (options : Options) : ℕ :=
  let numericPermutations :=
    countPermutations (countSoloMatches '#' '+' pattern) options.numericChars
  let alphanumericPermutations :=
    countPermutations (countSoloMatches '*' '+' pattern) options.alphanumericChars
  if 0 < numericPermutations ∧ 0 < alphanumericPermutations then
    numericPermutations * alphanumericPermutations
  else
    numericPermutations + alphanumericPermutations

/-- Lines 229-231: `neededChars`, i.e. `Math.ceil(Math.log(howMany) /
Math.log(allowedChars.length))`.  For the arguments the source can reach
(`howMany ≥ 1`, and an alphabet of at least two characters) this real-number
expression equals the least `L` with `allowedChars.length ^ L ≥ howMany`,
which is `Nat.clog allowedChars.length howMany`. -/
def neededChars (howMany : ℕ) (allowedChars : List Char) : ℕ :=
  Nat.clog allowedChars.length howMany

/-- Line 180: `howMany = Math.max(1, howMany - nonRepeatingPermutations +
existing)` — the deficit the variable placeholders must cover.  JS arithmetic
may go negative before the `max`, hence the detour through `ℤ`. -/
def deficitOf (pattern : List Char) (howMany existing : ℕ) (options : Options) : ℕ :=
  (max 1 ((howMany : ℤ) - (countNonRepeatingPermutations pattern options : ℤ) +
    (existing : ℤ))).toNat

/-- Lines 182-183: total number of variable-token matches
(`alphanumericMatches.length + numericMatches.length`). -/
def totalVarMatches (pattern : List Char) : ℕ :=
  countPairMatches '*' '+' pattern + countPairMatches '#' '+' pattern

/-- Line 184: `distribute = Math.ceil(howMany / totalMatches)`.  When
`totalMatches = 0` the JS value is `Infinity`; it is then never consumed
(the replace at lines 187-196 finds no variable token and pushes nothing),
so any value is faithful — `0` is used. -/
def distributeOf (pattern : List Char) (howMany existing : ℕ) (options : Options) : ℕ :=
  let t := totalVarMatches pattern
  if t = 0 then 0 else (deficitOf pattern howMany existing options + t - 1) / t

/-- The variable tokens of a pattern in left-to-right order, as matched by the
combined regex `(\*\+)|(#\+)` of line 185: `true` for `*+`, `false` for `#+`. -/
def varTokenIsAlnum : List Char → List Bool
  | [] => []
  | '*' :: '+' :: rest => true :: varTokenIsAlnum rest
  | '#' :: '+' :: rest => false :: varTokenIsAlnum rest
  | _ :: rest => varTokenIsAlnum rest

/-- Lines 176-198: `calculateRepetitions`.  One resolved character count per
variable token, in pattern order. -/
def calculateRepetitions (pattern : List Char) (howMany existing : ℕ)
    (options : Options) : List ℕ :=
  (varTokenIsAlnum pattern).map (fun isAlnum =>
    neededChars (distributeOf pattern howMany existing options)
      (if isAlnum then options.alphanumericChars else options.numericChars))

/-- The error raised by the generator.  `capacity` carries the data
interpolated into the message of lines 160-165; `constAssignment` is the
`TypeError` raised by line 68, which assigns to the `const`-declared binding
`repetitions` of line 62. -/
inductive CGError
  | capacity (requested : ℕ) (maximum : ℤ) (existing : ℕ) (sparsity : ℚ)
  | constAssignment
deriving DecidableEq

/-- Lines 156-167: `checkRequestedCode`; `some e` when the source throws. -/
def checkRequestedCode (pattern : List Char) (options : Options)
    (existingCountSparse howManySparse howMany existingCount : ℕ) : Option CGError :=
  let possible := countNonRepeatingPermutations pattern options
  let available : ℤ := (possible : ℤ) - (existingCountSparse : ℤ)
  if available < (howManySparse : ℤ) then
    some (CGError.capacity howMany (jsRoundDivNat possible options.sparsity)
      existingCount options.sparsity)
  else none

/-- The segments produced by the combined replace regex of lines 73-78,
`(\*\+)|(#\+)|(\*(?!\+))|(#(?!\+))` with everything else passed through as a
literal character. -/
inductive Tok
  | lit (c : Char)
  | alnum
  | num
  | alnumVar
  | numVar
deriving DecidableEq

/-- Left-to-right tokenization of a pattern by the combined replace regex:
alternatives are tried in order at each position, a failed position emits the
literal character, a match consumes its characters. -/
def tokenize : List Char → List Tok
  | [] => []
  | '*' :: '+' :: rest => Tok.alnumVar :: tokenize rest
  | '#' :: '+' :: rest => Tok.numVar :: tokenize rest
  | '*' :: rest => Tok.alnum :: tokenize rest
  | '#' :: rest => Tok.num :: tokenize rest
  | c :: rest => Tok.lit c :: tokenize rest

/-- `allowedChars.charAt(i)`: a one-character string, or the empty string when
the index is out of range. -/
def charAt (chars : List Char) (i : ℕ) : List Char :=
  match chars[i]? with
  | some c => [c]
  | none => []

/-- `Math.floor(Math.random() * len)`: any value in `0, ..., len - 1` when
`len > 0`, and `0` when `len = 0`.  The draw `r` comes from the stream. -/
def randomIndex (len r : ℕ) : ℕ := if len = 0 then 0 else r % len

/-- Lines 114-120: `randomChars`.  Returns the accumulated text and the
position of the next unconsumed stream element. -/
def randomChars (allowedChars : List Char) (howMany : ℕ) (stream : ℕ → ℕ)
    (pos : ℕ) : List Char × ℕ :=
  match howMany with
  | 0 => ([], pos)
  | n + 1 =>
      let c := charAt allowedChars (randomIndex allowedChars.length (stream pos))
      let r := randomChars allowedChars n stream (pos + 1)
      (c ++ r.1, r.2)

/-- One pass of `pattern.replace(combinedRegexp, callback)` (lines 84-95):
fixed tokens draw one character, variable tokens draw `rep.shift()` characters
(`shift` on an exhausted copy yields `undefined`, and `randomChars` with an
`undefined` count produces the empty string — hence `headD 0` / `tail`). -/
def emitCode : List Tok → Options → List ℕ → (ℕ → ℕ) → ℕ → List Char × ℕ
  | [], _, _, _, pos => ([], pos)
  | Tok.lit c :: ts, o, reps, s, pos =>
      let r := emitCode ts o reps s pos
      (c :: r.1, r.2)
  | Tok.alnum :: ts, o, reps, s, pos =>
      let c := randomChars o.alphanumericChars 1 s pos
      let r := emitCode ts o reps s c.2
      (c.1 ++ r.1, r.2)
  | Tok.num :: ts, o, reps, s, pos =>
      let c := randomChars o.numericChars 1 s pos
      let r := emitCode ts o reps s c.2
      (c.1 ++ r.1, r.2)
  | Tok.alnumVar :: ts, o, reps, s, pos =>
      let c := randomChars o.alphanumericChars (reps.headD 0) s pos
      let r := emitCode ts o reps.tail s c.2
      (c.1 ++ r.1, r.2)
  | Tok.numVar :: ts, o, reps, s, pos =>
      let c := randomChars o.numericChars (reps.headD 0) s pos
      let r := emitCode ts o reps.tail s c.2
      (c.1 ++ r.1, r.2)

/-- Outcome of a `generateCodes` call: the returned array, a thrown error, or
fuel exhaustion of the (unbounded in JS) retry loop. -/
inductive GenResult
  | ok (codes : List (List Char))
  | error (e : CGError)
  | outOfFuel
deriving DecidableEq

/-- Lines 82-102: the generation loop.  `generated` is the accumulated array,
`existing` the key set of the `existingCodes` object (initial keys plus codes
generated this run).  Each iteration re-slices `reps` from the full
`repetitions` array (line 83). -/
def genLoop (toks : List Tok) (o : Options) (reps : List ℕ) (howMany : ℕ)
    (stream : ℕ → ℕ) : ℕ → ℕ → List (List Char) → List (List Char) → GenResult
  | 0, _, generated, _ =>
      if howMany ≤ generated.length then GenResult.ok generated else GenResult.outOfFuel
  | fuel + 1, pos, generated, existing =>
      if howMany ≤ generated.length then GenResult.ok generated
      else
        let ec := emitCode toks o reps stream pos
        if ec.1 ∈ existing then
          genLoop toks o reps howMany stream fuel ec.2 generated existing
        else
          genLoop toks o reps howMany stream fuel ec.2 (generated ++ [ec.1])
            (ec.1 :: existing)

/-- Lines 56-105: `generateCodes`.  `st` is the `lastIndex` state of the two
variable-token regexes on entry (the module-level defaults start at `(0, 0)`).
On the variable-length path the source evaluates
`calculateRepetitions(...)` and then throws `TypeError` when assigning the
result to the `const` binding `repetitions` (line 62 declares it `const`,
line 68 assigns), so that path always errors before the loop; on the
fixed-only path `repetitions` keeps its initial value `[]`. -/
def generateCodes (pattern : List Char) (howMany : Option ℕ) (opts : Options)
    (st : ℕ × ℕ) (stream : ℕ → ℕ) (fuel : ℕ) : GenResult :=
  let options := clampSparsity opts
  let hm := effectiveHowMany howMany
  let howManySparse := jsCeilMulNat hm options.sparsity
  let existingKeys := (options.existingCodesLoader pattern).dedup
  let existingCount := existingKeys.length
  let existingCountSparse := jsCeilMulNat existingCount options.sparsity
  if (hasMorePlaceholder pattern st).1 then
    GenResult.error CGError.constAssignment
  else
    match checkRequestedCode pattern options existingCountSparse howManySparse
      hm existingCount with
    | some e => GenResult.error e
    | none => genLoop (tokenize pattern) options [] hm stream fuel 0 [] existingKeys

/-- Modelled from the spec, §8 "Shape conformance": a returned code matches the
pattern structurally when the token sequence of the pattern can be aligned with
the code so that a literal token contributes exactly its own character, a fixed
placeholder contributes exactly one character of its alphabet, and a variable
placeholder contributes some (possibly empty) run of characters of its
alphabet.  Stated as an executable checker; variable-length runs are found by
trying every split point. -/
def conformsToPattern (numChars alnumChars : List Char) : List Tok → List Char → Bool
  | [], s => s.isEmpty
  | Tok.lit c :: ts, s =>
      match s with
      | [] => false
      | d :: s2 => decide (c = d) && conformsToPattern numChars alnumChars ts s2
  | Tok.num :: ts, s =>
      match s with
      | [] => false
      | d :: s2 => decide (d ∈ numChars) && conformsToPattern numChars alnumChars ts s2
  | Tok.alnum :: ts, s =>
      match s with
      | [] => false
      | d :: s2 => decide (d ∈ alnumChars) && conformsToPattern numChars alnumChars ts s2
  | Tok.numVar :: ts, s =>
      (List.range (s.length + 1)).any (fun k =>
        decide (∀ d ∈ s.take k, d ∈ numChars) &&
          conformsToPattern numChars alnumChars ts (s.drop k))
  | Tok.alnumVar :: ts, s =>
      (List.range (s.length + 1)).any (fun k =>
        decide (∀ d ∈ s.take k, d ∈ alnumChars) &&
          conformsToPattern numChars alnumChars ts (s.drop k))

/-- A degenerate random stream (all draws pick index 0). -/
def zeroStream : ℕ → ℕ := fun _ => 0

/-- The identity random stream (draw `i` picks index `i`). -/
def natStream : ℕ → ℕ := fun i => i

/-- The 95 two-digit decimal strings `"00", "01", ..., "94"`, used as the
existing codes of the feasibility-boundary scenario for pattern `"##"`. -/
def existing95 : List (List Char) :=
  (List.range 95).map (fun n => [Nat.digitChar (n / 10), Nat.digitChar (n % 10)])

/-- Default options whose loader supplies `existing95`. -/
def options95 : Options :=
  { defaultOptions with existingCodesLoader := fun _ => existing95 }

/-- A random stream that makes the `"##"` run with `existing95` produce
`"95", "96", "97", "98", "99"` in order. -/
def c3Stream : ℕ → ℕ := fun i => if i % 2 = 0 then 9 else 5 + i / 2

/-- Default options with an empty numeric alphabet (a caller may override
`numericChars`; the source never validates it). -/
def optionsEmptyNumeric : Options :=
  { defaultOptions with numericChars := [] }

/-! Bridge lemmas: the kernel-friendly numerator/denominator arithmetic agrees
with the mathematical `Int.floor` / `Int.ceil` on `ℚ`. -/

lemma floor_intCast_div_intCast (a b : ℤ) (hb : 0 < b) :
    Int.floor ((a : ℚ) / (b : ℚ)) = a / b := by
  have h : ((b.toNat : ℕ) : ℤ) = b := Int.toNat_of_nonneg hb.le
  have h2 : ((b.toNat : ℕ) : ℚ) = (b : ℚ) := by exact_mod_cast h
  rw [← h2, Rat.floor_intCast_div_natCast, h]

lemma jsCeilMulNat_eq (n : ℕ) (s : ℚ) :
    jsCeilMulNat n s = (Int.ceil ((n : ℚ) * s)).toNat := by
  unfold jsCeilMulNat
  congr 1
  have hden : (0 : ℤ) < (s.den : ℤ) := by exact_mod_cast s.den_pos
  have key : -((n : ℚ) * s) = ((-((n : ℤ) * s.num) : ℤ) : ℚ) / ((s.den : ℤ) : ℚ) := by
    conv_lhs => rw [← Rat.num_div_den s]
    have hd : ((s.den : ℕ) : ℚ) ≠ 0 := by exact_mod_cast s.den_pos.ne'
    push_cast
    field_simp
  calc -(-((n : ℤ) * s.num) / (s.den : ℤ))
      = -Int.floor (((-((n : ℤ) * s.num) : ℤ) : ℚ) / ((s.den : ℤ) : ℚ)) := by
        rw [floor_intCast_div_intCast _ _ hden]
    _ = -Int.floor (-((n : ℚ) * s)) := by rw [key]
    _ = Int.ceil ((n : ℚ) * s) := by rw [Int.floor_neg, neg_neg]

lemma jsCeilMulNat_one (n : ℕ) : jsCeilMulNat n 1 = n := by
  rw [jsCeilMulNat_eq, mul_one, Int.ceil_natCast, Int.toNat_natCast]

lemma jsRoundDivNat_eq (n : ℕ) (s : ℚ) (hs : 0 < s) :
    jsRoundDivNat n s = Int.floor ((n : ℚ) / s + 1 / 2) := by
  unfold jsRoundDivNat
  have hnum : (0 : ℤ) < s.num := Rat.num_pos.mpr hs
  have hnumQ : ((s.num : ℤ) : ℚ) ≠ 0 := by exact_mod_cast hnum.ne'
  have hdenQ : ((s.den : ℕ) : ℚ) ≠ 0 := by exact_mod_cast s.den_pos.ne'
  have key : (n : ℚ) / s + 1 / 2 =
      (((2 * (n : ℤ) * (s.den : ℤ) + s.num) : ℤ) : ℚ) / (((2 * s.num) : ℤ) : ℚ) := by
    conv_lhs => rw [← Rat.num_div_den s]
    push_cast
    field_simp
    ring
  rw [key, floor_intCast_div_intCast _ _ (by positivity)]

/-! Relating the stateful variable-token test to the pattern contents. -/

lemma findPairIdx_isSome_iff (t0 t1 : Char) (p : List Char) :
    (findPairIdx t0 t1 p).isSome = true ↔ 0 < countPairMatches t0 t1 p := by
  induction p with
  | nil => simp [findPairIdx, countPairMatches]
  | cons c tail ih =>
    cases tail with
    | nil => simp [findPairIdx, countPairMatches]
    | cons d rest =>
      by_cases h : c = t0 ∧ d = t1
      · simp [findPairIdx, countPairMatches, h]
      · simpa [findPairIdx, countPairMatches, h] using ih

lemma testG_fst_zero (t0 t1 : Char) (p : List Char) :
    (testG t0 t1 p 0).1 = true ↔ 0 < countPairMatches t0 t1 p := by
  rw [← findPairIdx_isSome_iff t0 t1 p]
  unfold testG
  rw [List.drop_zero]
  rcases h : findPairIdx t0 t1 p with _ | i <;> simp [h]

lemma hasMorePlaceholder_fst_zero (p : List Char) :
    (hasMorePlaceholder p (0, 0)).1 = true ↔
      0 < countPairMatches '*' '+' p ∨ 0 < countPairMatches '#' '+' p := by
  unfold hasMorePlaceholder
  rcases h1 : (testG '*' '+' p 0).1 with _ | _
  · rcases h2 : (testG '#' '+' p 0).1 with _ | _
    · simp only [h1, Bool.false_eq_true, if_false, h2]
      constructor
      · intro h; exact absurd h (by simp)
      · intro h
        rcases h with h | h
        · exact absurd ((testG_fst_zero _ _ _).mpr h) (by simp [h1])
        · exact absurd ((testG_fst_zero _ _ _).mpr h) (by simp [h2])
    · simp only [h1, Bool.false_eq_true, if_false, h2, true_iff]
      exact Or.inr ((testG_fst_zero _ _ _).mp h2)
  · simp only [h1, if_true, true_iff]
    exact Or.inl ((testG_fst_zero _ _ _).mp h1)

lemma hasMorePlaceholder_fst_zero_false (p : List Char)
    (h1 : countPairMatches '*' '+' p = 0) (h2 : countPairMatches '#' '+' p = 0) :
    (hasMorePlaceholder p (0, 0)).1 = false := by
  rcases h : (hasMorePlaceholder p (0, 0)).1 with _ | _
  · rfl
  · have := (hasMorePlaceholder_fst_zero p).mp h
    omega

/-! Evaluation helpers for `calculateRepetitions` on concrete patterns. -/

lemma clog10_100 : Nat.clog 10 100 = 2 := by
  have hb : (1 : ℕ) < 10 := by norm_num
  have h1 : Nat.clog 10 100 ≤ 2 := (Nat.le_pow_iff_clog_le hb).mp (by norm_num)
  have h2 : ¬ Nat.clog 10 100 ≤ 1 := by
    intro hc
    have := (Nat.le_pow_iff_clog_le hb).mpr hc
    norm_num at this
  omega

lemma calcReps_AHashPlus (h e : ℕ) :
    calculateRepetitions (("A#+").data) h e defaultOptions =
      [Nat.clog 10 (deficitOf (("A#+").data) h e defaultOptions)] := by
  have hd : distributeOf (("A#+").data) h e defaultOptions =
      deficitOf (("A#+").data) h e defaultOptions := by
    unfold distributeOf
    norm_num [show totalVarMatches (("A#+").data) = 1 from rfl]
  unfold calculateRepetitions
  rw [show varTokenIsAlnum (("A#+").data) = [false] from rfl]
  simp [hd, neededChars, show defaultOptions.numericChars.length = 10 from rfl]

lemma deficitOf_mono (p : List Char) (e : ℕ) (o : Options) {h₁ h₂ : ℕ} (hle : h₁ ≤ h₂) :
    deficitOf p h₁ e o ≤ deficitOf p h₂ e o := by
  unfold deficitOf
  omega

/-! Simple facts about the option plumbing. -/

lemma clampSparsity_loader (o : Options) :
    (clampSparsity o).existingCodesLoader = o.existingCodesLoader := by
  unfold clampSparsity
  split <;> rfl

lemma clampSparsity_numericChars (o : Options) :
    (clampSparsity o).numericChars = o.numericChars := by
  unfold clampSparsity
  split <;> rfl

lemma clampSparsity_alphanumericChars (o : Options) :
    (clampSparsity o).alphanumericChars = o.alphanumericChars := by
  unfold clampSparsity
  split <;> rfl

lemma clampSparsity_of_ge (o : Options) (h : 1 ≤ o.sparsity) : clampSparsity o = o := by
  unfold clampSparsity
  rw [if_neg (not_lt.mpr h)]

lemma effectiveHowMany_of_pos {n : ℕ} (h : 1 ≤ n) : effectiveHowMany (some n) = n := by
  cases n with
  | zero => omega
  | succ k => rfl

/-! Invariants of the generation loop. -/

lemma genLoop_ne_error (toks : List Tok) (o : Options) (reps : List ℕ) (hm : ℕ)
    (s : ℕ → ℕ) :
    ∀ (fuel pos : ℕ) (generated existing : List (List Char)) (e : CGError),
      genLoop toks o reps hm s fuel pos generated existing ≠ GenResult.error e := by
  intro fuel
  induction fuel with
  | zero =>
    intro pos generated existing e heq
    unfold genLoop at heq
    split at heq <;> cases heq
  | succ fuel ih =>
    intro pos generated existing e heq
    unfold genLoop at heq
    simp only at heq
    split at heq
    · cases heq
    · split at heq
      · exact ih _ _ _ _ heq
      · exact ih _ _ _ _ heq

lemma genLoop_ok_spec (toks : List Tok) (o : Options) (reps : List ℕ) (hm : ℕ)
    (s : ℕ → ℕ) :
    ∀ (fuel pos : ℕ) (generated existing codes : List (List Char)),
      (∀ c ∈ generated, c ∈ existing) → generated.Nodup → generated.length ≤ hm →
      genLoop toks o reps hm s fuel pos generated existing = GenResult.ok codes →
      codes.length = hm ∧ codes.Nodup ∧
        ∀ c ∈ codes, c ∈ generated ∨ c ∉ existing := by
  intro fuel
  induction fuel with
  | zero =>
    intro pos generated existing codes hsub hnd hlen heq
    unfold genLoop at heq
    split at heq
    case isTrue h =>
      cases heq
      exact ⟨by omega, hnd, fun c hc => Or.inl hc⟩
    case isFalse h => cases heq
  | succ fuel ih =>
    intro pos generated existing codes hsub hnd hlen heq
    unfold genLoop at heq
    simp only at heq
    split at heq
    case isTrue h =>
      cases heq
      exact ⟨by omega, hnd, fun c hc => Or.inl hc⟩
    case isFalse h =>
      split at heq
      case isTrue hmem =>
        exact ih _ _ _ _ hsub hnd hlen heq
      case isFalse hmem =>
        have hnotin : (emitCode toks o reps s pos).1 ∉ generated :=
          fun hin => hmem (hsub _ hin)
        have hsub' : ∀ c ∈ generated ++ [(emitCode toks o reps s pos).1],
            c ∈ (emitCode toks o reps s pos).1 :: existing := by
          intro c hc
          rcases List.mem_append.mp hc with hx | hx
          · exact List.mem_cons_of_mem _ (hsub c hx)
          · rw [List.mem_singleton] at hx
            subst hx
            exact List.mem_cons_self _ _
        have hnd' : (generated ++ [(emitCode toks o reps s pos).1]).Nodup := by
          refine List.Nodup.append hnd (List.nodup_singleton _) ?_
          intro a ha hb
          rw [List.mem_singleton] at hb
          subst hb
          exact hnotin ha
        have hlen' : (generated ++ [(emitCode toks o reps s pos).1]).length ≤ hm := by
          rw [List.length_append, List.length_singleton]
          omega
        obtain ⟨h1, h2, h3⟩ := ih _ _ _ _ hsub' hnd' hlen' heq
        refine ⟨h1, h2, fun c hc => ?_⟩
        rcases h3 c hc with hx | hx
        · rcases List.mem_append.mp hx with hy | hy
          · exact Or.inl hy
          · rw [List.mem_singleton] at hy
            subst hy
            exact Or.inr hmem
        · exact Or.inr fun hex => hx (List.mem_cons_of_mem _ hex)

lemma randomIndex_lt (chars : List Char) (hne : chars ≠ []) (r : ℕ) :
    randomIndex chars.length r < chars.length := by
  unfold randomIndex
  have h0 : chars.length ≠ 0 := fun h => hne (List.eq_nil_of_length_eq_zero h)
  rw [if_neg h0]
  exact Nat.mod_lt _ (Nat.pos_of_ne_zero h0)

lemma randomChars_mem (chars : List Char) (s : ℕ → ℕ) :
    ∀ (n pos : ℕ), ∀ c ∈ (randomChars chars n s pos).1, c ∈ chars := by
  intro n
  induction n with
  | zero => intro pos c hc; cases hc
  | succ k ih =>
    intro pos c hc
    unfold randomChars at hc
    simp only at hc
    rcases List.mem_append.mp hc with h | h
    · unfold charAt at h
      rcases hg : chars[randomIndex chars.length (s pos)]? with _ | d
      · rw [hg] at h; cases h
      · rw [hg] at h
        rw [List.mem_singleton] at h
        subst h
        exact List.getElem?_mem hg
    · exact ih (pos + 1) c h

lemma randomChars_length (chars : List Char) (hne : chars ≠ []) (s : ℕ → ℕ) :
    ∀ (n pos : ℕ), (randomChars chars n s pos).1.length = n := by
  intro n
  induction n with
  | zero => intro pos; rfl
  | succ k ih =>
    intro pos
    unfold randomChars
    simp only
    rw [List.length_append, ih (pos + 1)]
    unfold charAt
    rw [List.getElem?_eq_getElem (randomIndex_lt chars hne (s pos))]
    simp [Nat.add_comm]

lemma randomChars_one (chars : List Char) (hne : chars ≠ []) (s : ℕ → ℕ) (pos : ℕ) :
    ∃ d, d ∈ chars ∧ (randomChars chars 1 s pos).1 = [d] := by
  have hlt := randomIndex_lt chars hne (s pos)
  refine ⟨chars.get ⟨randomIndex chars.length (s pos), hlt⟩, List.get_mem _ _ hlt, ?_⟩
  unfold randomChars
  simp only
  unfold charAt
  rw [List.getElem?_eq_getElem hlt]
  simp [randomChars, List.get_eq_getElem]

lemma emitCode_conforms (o : Options) (hn : o.numericChars ≠ [])
    (ha : o.alphanumericChars ≠ []) (s : ℕ → ℕ) :
    ∀ (toks : List Tok) (reps : List ℕ) (pos : ℕ),
      conformsToPattern o.numericChars o.alphanumericChars toks
        (emitCode toks o reps s pos).1 = true := by
  intro toks
  induction toks with
  | nil => intro reps pos; rfl
  | cons t ts ih =>
    intro reps pos
    cases t with
    | lit c =>
      simp only [emitCode]
      simp [conformsToPattern, ih]
    | num =>
      simp only [emitCode]
      obtain ⟨d, hd, hrc⟩ := randomChars_one o.numericChars hn s pos
      rw [hrc]
      simp [conformsToPattern, hd, ih]
    | alnum =>
      simp only [emitCode]
      obtain ⟨d, hd, hrc⟩ := randomChars_one o.alphanumericChars ha s pos
      rw [hrc]
      simp [conformsToPattern, hd, ih]
    | numVar =>
      simp only [emitCode]
      unfold conformsToPattern
      rw [List.any_eq_true]
      refine ⟨(randomChars o.numericChars (reps.headD 0) s pos).1.length, ?_, ?_⟩
      · rw [List.mem_range, List.length_append]
        omega
      · rw [List.take_left, List.drop_left, Bool.and_eq_true]
        constructor
        · rw [decide_eq_true_eq]
          exact fun d hdm => randomChars_mem _ _ _ _ d hdm
        · exact ih reps.tail _
    | alnumVar =>
      simp only [emitCode]
      unfold conformsToPattern
      rw [List.any_eq_true]
      refine ⟨(randomChars o.alphanumericChars (reps.headD 0) s pos).1.length, ?_, ?_⟩
      · rw [List.mem_range, List.length_append]
        omega
      · rw [List.take_left, List.drop_left, Bool.and_eq_true]
        constructor
        · rw [decide_eq_true_eq]
          exact fun d hdm => randomChars_mem _ _ _ _ d hdm
        · exact ih reps.tail _

lemma genLoop_ok_pred (toks : List Tok) (o : Options) (reps : List ℕ) (hm : ℕ)
    (s : ℕ → ℕ) (P : List Char → Prop)
    (hemit : ∀ pos, P (emitCode toks o reps s pos).1) :
    ∀ (fuel pos : ℕ) (generated existing codes : List (List Char)),
      (∀ c ∈ generated, P c) →
      genLoop toks o reps hm s fuel pos generated existing = GenResult.ok codes →
      ∀ c ∈ codes, P c := by
  intro fuel
  induction fuel with
  | zero =>
    intro pos generated existing codes hgen heq
    unfold genLoop at heq
    split at heq
    · cases heq; exact hgen
    · cases heq
  | succ fuel ih =>
    intro pos generated existing codes hgen heq
    unfold genLoop at heq
    simp only at heq
    split at heq
    · cases heq; exact hgen
    · split at heq
      · exact ih _ _ _ _ hgen heq
      · refine ih _ _ _ _ ?_ heq
        intro c hc
        rcases List.mem_append.mp hc with h | h
        · exact hgen c h
        · rw [List.mem_singleton] at h
          subst h
          exact hemit pos

lemma generateCodes_ok_spec (p : List Char) (hm : Option ℕ) (o : Options)
    (st : ℕ × ℕ) (s : ℕ → ℕ) (fuel : ℕ) (codes : List (List Char))
    (heq : generateCodes p hm o st s fuel = GenResult.ok codes) :
    codes.length = effectiveHowMany hm ∧ codes.Nodup ∧
      ∀ c ∈ codes, c ∉ o.existingCodesLoader p := by
  unfold generateCodes at heq
  simp only at heq
  split at heq
  · cases heq
  · split at heq
    · cases heq
    · obtain ⟨h1, h2, h3⟩ := genLoop_ok_spec _ _ _ _ _ _ _ _ _ _
        (by intro c hc; cases hc) List.nodup_nil (by simp) heq
      refine ⟨h1, h2, fun c hc hmem => ?_⟩
      rcases h3 c hc with hx | hx
      · cases hx
      · rw [clampSparsity_loader] at hx
        exact hx (List.mem_dedup.mpr hmem)

end CodeGen

open CodeGen

/-- Claim C1 (code bug): the claim states that for every pattern with a
variable-length placeholder `generateCodes` completes without raising, and in
particular that pattern `"V-#+"` with `howMany = 50` succeeds.  The code
instead always throws: line 62 declares `const repetitions = []` and line 68
assigns `repetitions = calculateRepetitions(...)`, a `TypeError` in an ES
module.  This theorem evaluates the embedded code at the claim's own concrete
input: the call reports the assignment-to-const error for every random stream
and every fuel. -/
theorem C1_variable_length_path_always_throws :
    ∀ (s : ℕ → ℕ) (fuel : ℕ),
      generateCodes (("V-#+").data) (some 50) defaultOptions (0, 0) s fuel =
        GenResult.error CGError.constAssignment :=
  fun _ _ => rfl

/-- Claim C4 (counterexample): the claim asserts the result of
`hasMorePlaceholder` depends only on the pattern, so two successive calls with
the same pattern and the default configuration return the same answer.  The
two variable-token regexes carry the `g` flag and are consulted through
`RegExp.test`, which advances the shared `lastIndex`: on pattern `"#+"` a
first call (fresh state `(0, 0)`) returns `true` and leaves the numeric
regex's `lastIndex` at `2`, and a second call from that state returns
`false`. -/
theorem C4_counterexample_stateful_regex :
    (hasMorePlaceholder (("#+").data) (0, 0)).1 = true ∧
      (hasMorePlaceholder (("#+").data)
        ((hasMorePlaceholder (("#+").data) (0, 0)).2)).1 = false := by
  constructor <;> rfl

/-- Claim C4 (amended): called with fresh regex state (both variable-token
regexes at `lastIndex = 0`, which is what every call made through
`generateCodes` observes), `hasMorePlaceholder` returns `true` if and only if
the pattern contains at least one `*+` or `#+` token; with reused default
regexes the result additionally depends on the retained `lastIndex` state, so
two successive direct calls with the same pattern may disagree. -/
theorem C4_hasMorePlaceholder_iff_fresh_state (p : List Char) :
    (hasMorePlaceholder p (0, 0)).1 = true ↔
      0 < countPairMatches '*' '+' p ∨ 0 < countPairMatches '#' '+' p :=
  hasMorePlaceholder_fst_zero p

/-- Claim C6 (counterexample): the claim asserts every resolved
character-length is at least 1.  For pattern `"##0#+"` with
`howManySparse = 1` and no existing codes, the fixed placeholders provide 100
permutations, the deficit is floored to 1, the per-token target is 1, and
`neededChars(1, "0123456789") = ceil(log 1 / log 10) = 0`: the single
resolved length is 0. -/
theorem C6_counterexample_zero_length :
    calculateRepetitions (("##0#+").data) 1 0 defaultOptions = [0] ∧
      ¬ (∀ L ∈ calculateRepetitions (("##0#+").data) 1 0 defaultOptions, 1 ≤ L) := by
  have heq : calculateRepetitions (("##0#+").data) 1 0 defaultOptions = [0] := by
    have hd : distributeOf (("##0#+").data) 1 0 defaultOptions = 1 := by decide
    unfold calculateRepetitions
    rw [show varTokenIsAlnum (("##0#+").data) = [false] from rfl]
    simp [hd, neededChars, Nat.clog_of_right_le_one]
  refine ⟨heq, fun h => ?_⟩
  rw [heq] at h
  exact absurd (h 0 (by simp)) (by omega)

/-- Claim C6 (amended): every resolved character-length produced by
`calculateRepetitions` is nonnegative, and (for alphabets of at least two
characters) it is at least 1 exactly when the per-token target
`distribute = ceil(deficit / totalVarTokens)` is at least 2; when the fixed
placeholders already cover the scaled request the deficit is floored to 1,
the target is 1, and zero characters are allocated to each variable token. -/
theorem C6_resolved_length_pos_iff (p : List Char) (hm ex : ℕ) (o : Options)
    (hn : 2 ≤ o.numericChars.length) (ha : 2 ≤ o.alphanumericChars.length) :
    ∀ L ∈ calculateRepetitions p hm ex o, (1 ≤ L ↔ 2 ≤ distributeOf p hm ex o) := by
  intro L hL
  unfold calculateRepetitions at hL
  rw [List.mem_map] at hL
  obtain ⟨b, _, rfl⟩ := hL
  constructor
  · intro h1
    by_contra hlt
    push_neg at hlt
    have h0 : neededChars (distributeOf p hm ex o)
        (if b = true then o.alphanumericChars else o.numericChars) = 0 := by
      unfold neededChars
      exact Nat.clog_of_right_le_one (by omega) _
    omega
  · intro h2
    unfold neededChars
    cases b
    · exact Nat.clog_pos (by simpa using hn) h2
    · exact Nat.clog_pos (by simpa using ha) h2

/-- Witness for the amended C6 theorem: for pattern `"A#+"` with
`howManySparse = 100`, the resolved length is `2 = clog 10 100`, which is at
least 1, and the per-token target is `100 ≥ 2`. -/
theorem C6_resolved_length_pos_iff_witness :
    (1 ≤ 2 ↔ 2 ≤ distributeOf (("A#+").data) 100 0 defaultOptions) := by
  have heq : calculateRepetitions (("A#+").data) 100 0 defaultOptions = [2] := by
    rw [calcReps_AHashPlus]
    rw [show deficitOf (("A#+").data) 100 0 defaultOptions = 100 from by decide]
    rw [clog10_100]
  exact C6_resolved_length_pos_iff (("A#+").data) 100 0 defaultOptions
    (by decide) (by decide) 2 (by rw [heq]; simp)

/-- Claim C7: for pattern `"A#+"` with the default (fixed) configuration, the
character-length `calculateRepetitions` resolves for the `#+` token is
monotonically non-decreasing in the requested quantity. -/
theorem C7_resolved_length_monotone (e h₁ h₂ : ℕ) (hle : h₁ ≤ h₂) :
    (calculateRepetitions (("A#+").data) h₁ e defaultOptions).headD 0 ≤
      (calculateRepetitions (("A#+").data) h₂ e defaultOptions).headD 0 := by
  rw [calcReps_AHashPlus, calcReps_AHashPlus]
  simpa using Nat.clog_mono_right 10 (deficitOf_mono _ e _ hle)

/-- Witness for C7 at a concrete pair of requests. -/
theorem C7_resolved_length_monotone_witness :
    (calculateRepetitions (("A#+").data) 3 0 defaultOptions).headD 0 ≤
      (calculateRepetitions (("A#+").data) 7 0 defaultOptions).headD 0 :=
  C7_resolved_length_monotone 0 3 7 (by decide)

/-- Claim C2 (counterexample): the claim states that for pattern `"FIXED"`
(no placeholders), requesting one code returns `["FIXED"]`.  The code counts
zero possible permutations for a placeholder-free pattern (both match counts
are zero, so `countNonRepeatingPermutations` returns `0 + 0`), and the
capacity check `0 - 0 < 1` therefore throws even for `howMany = 1`. -/
theorem C2_counterexample_fixed_pattern :
    generateCodes (("FIXED").data) (some 1) defaultOptions (0, 0) zeroStream 5 ≠
      GenResult.ok [("FIXED").data] := by
  decide

/-- Claim C2 (amended): for the placeholder-free pattern `"FIXED"` with empty
existing codes, `generateCodes` fails with a capacity error reporting
maximum 0 for `howMany = 1` just as for `howMany = 2` — the code treats a
pattern with no placeholders as having 0 (not 1) possible permutations, so no
request of one or more codes can succeed and `["FIXED"]` is never returned. -/
theorem C2_fixed_pattern_capacity_error :
    ∀ (s : ℕ → ℕ) (fuel : ℕ),
      generateCodes (("FIXED").data) (some 1) defaultOptions (0, 0) s fuel =
          GenResult.error (CGError.capacity 1 0 0 1) ∧
        generateCodes (("FIXED").data) (some 2) defaultOptions (0, 0) s fuel =
          GenResult.error (CGError.capacity 2 0 0 1) :=
  fun _ _ => ⟨rfl, rfl⟩

/-- Claim C5: whenever `generateCodes` returns (for a request in the declared
domain `howMany ≥ 1`), the result has length exactly `howMany`, its elements
are pairwise distinct, and none of them equals any string supplied by the
existing-codes loader for that call. -/
theorem C5_returned_codes_unique_and_counted (p : List Char) (hm : ℕ)
    (h1 : 1 ≤ hm) (o : Options) (st : ℕ × ℕ) (s : ℕ → ℕ) (fuel : ℕ)
    (codes : List (List Char))
    (heq : generateCodes p (some hm) o st s fuel = GenResult.ok codes) :
    codes.length = hm ∧ codes.Nodup ∧ ∀ c ∈ codes, c ∉ o.existingCodesLoader p := by
  have h := generateCodes_ok_spec p (some hm) o st s fuel codes heq
  rwa [effectiveHowMany_of_pos h1] at h

/-- Witness for C5: a concrete run of pattern `"#"` with `howMany = 2` returns
`["0", "1"]`, which has length 2, is duplicate-free, and avoids the (empty)
loader output. -/
theorem C5_returned_codes_unique_and_counted_witness :
    ([['0'], ['1']] : List (List Char)).length = 2 ∧
      ([['0'], ['1']] : List (List Char)).Nodup ∧
      ∀ c ∈ ([['0'], ['1']] : List (List Char)),
        c ∉ defaultOptions.existingCodesLoader (("#").data) :=
  C5_returned_codes_unique_and_counted (("#").data) 2 (by decide) defaultOptions
    (0, 0) natStream 3 [['0'], ['1']] (by decide)

/-- Claim C10: calling `generateCodes` with `howMany = 0` or with `howMany`
omitted is coerced to `howMany = 1` by `howMany = howMany || 1`, so a
successful call returns exactly one code, never an empty sequence. -/
theorem C10_howMany_zero_coerced_to_one (p : List Char) (o : Options)
    (st : ℕ × ℕ) (s : ℕ → ℕ) (fuel : ℕ) (codes : List (List Char))
    (hm : Option ℕ) (hcase : hm = none ∨ hm = some 0)
    (heq : generateCodes p hm o st s fuel = GenResult.ok codes) :
    codes.length = 1 := by
  have h := (generateCodes_ok_spec p hm o st s fuel codes heq).1
  rcases hcase with rfl | rfl <;> simpa [effectiveHowMany] using h

/-- Witness for C10: a concrete run of pattern `"#"` with `howMany = 0`
returns the single code `"0"`. -/
theorem C10_howMany_zero_coerced_to_one_witness :
    ([['0']] : List (List Char)).length = 1 :=
  C10_howMany_zero_coerced_to_one (("#").data) defaultOptions (0, 0) natStream 2
    [['0']] (some 0) (Or.inr rfl) (by decide)

/-- Claim C9 (counterexample): the claim states that for every alphabet string
and count ≥ 0 the result has length exactly count.  With the empty alphabet,
`charAt` is called with index `Math.floor(Math.random() * 0) = 0`, which is
out of range and yields the empty string, so `randomChars("", 1)` returns `""`
of length 0, not 1. -/
theorem C9_counterexample_empty_alphabet :
    (randomChars ([] : List Char) 1 zeroStream 0).1 = [] ∧
      (randomChars ([] : List Char) 1 zeroStream 0).1.length ≠ 1 := by
  constructor <;> decide

/-- Claim C9 (amended): for every nonempty alphabet and every count ≥ 0,
`randomChars` returns a string of length exactly count, each character of
which is a member of the alphabet; with an empty alphabet every draw yields
the empty string, so the result is empty regardless of count. -/
theorem C9_randomChars_length_and_membership (chars : List Char)
    (hne : chars ≠ []) (n : ℕ) (s : ℕ → ℕ) (pos : ℕ) :
    (randomChars chars n s pos).1.length = n ∧
      ∀ c ∈ (randomChars chars n s pos).1, c ∈ chars :=
  ⟨randomChars_length chars hne s n pos, randomChars_mem chars s n pos⟩

/-- Witness for the amended C9 theorem at the default numeric alphabet and
count 3. -/
theorem C9_randomChars_length_and_membership_witness :
    (randomChars defaultOptions.numericChars 3 natStream 0).1.length = 3 ∧
      ∀ c ∈ (randomChars defaultOptions.numericChars 3 natStream 0).1,
        c ∈ defaultOptions.numericChars :=
  C9_randomChars_length_and_membership defaultOptions.numericChars (by decide)
    3 natStream 0

/-- Claim C8 (counterexample): the claim states every returned code conforms
structurally to the pattern — in particular each fixed placeholder is replaced
by exactly one character of its configured alphabet.  With a configured empty
numeric alphabet and pattern `"#*"`, the numeric side contributes 0 to the
permutation count, the additive fallback makes the capacity check pass using
the alphanumeric side alone, and the emitted code replaces `#` by the empty
string: the call returns `["1"]`, which does not conform to the pattern. -/
theorem C8_counterexample_empty_alphabet :
    generateCodes (("#*").data) (some 1) optionsEmptyNumeric (0, 0) zeroStream 2 =
        GenResult.ok [['1']] ∧
      conformsToPattern optionsEmptyNumeric.numericChars
        optionsEmptyNumeric.alphanumericChars (tokenize (("#*").data)) ['1'] = false := by
  constructor <;> decide

/-- Claim C8 (amended): provided the configured alphabets are nonempty (as the
defaults are), every code returned by `generateCodes` conforms structurally to
the pattern: literal characters pass through unchanged at their positions,
each fixed placeholder is replaced by exactly one character of its alphabet,
and every character substituted for a placeholder is drawn from that
placeholder's declared alphabet (a variable placeholder contributes a possibly
empty run).  With an empty configured alphabet a fixed placeholder can instead
be replaced by the empty string. -/
theorem C8_returned_codes_conform (p : List Char) (hm : Option ℕ) (o : Options)
    (hn : o.numericChars ≠ []) (ha : o.alphanumericChars ≠ [])
    (st : ℕ × ℕ) (s : ℕ → ℕ) (fuel : ℕ) (codes : List (List Char))
    (heq : generateCodes p hm o st s fuel = GenResult.ok codes) :
    ∀ c ∈ codes,
      conformsToPattern o.numericChars o.alphanumericChars (tokenize p) c = true := by
  unfold generateCodes at heq
  simp only at heq
  split at heq
  · cases heq
  · split at heq
    · cases heq
    · have hn' : (clampSparsity o).numericChars ≠ [] := by
        rw [clampSparsity_numericChars]; exact hn
      have ha' : (clampSparsity o).alphanumericChars ≠ [] := by
        rw [clampSparsity_alphanumericChars]; exact ha
      have hres := genLoop_ok_pred (tokenize p) (clampSparsity o) []
        (effectiveHowMany hm) s
        (fun c => conformsToPattern (clampSparsity o).numericChars
          (clampSparsity o).alphanumericChars (tokenize p) c = true)
        (fun pos => emitCode_conforms (clampSparsity o) hn' ha' s (tokenize p) [] pos)
        fuel 0 [] _ codes (fun c hc => by cases hc) heq
      intro c hc
      have hcf := hres c hc
      rwa [clampSparsity_numericChars, clampSparsity_alphanumericChars] at hcf

/-- Witness for the amended C8 theorem: the concrete run of pattern `"A#"`
with the default alphabets returns `["A0"]`, and that code conforms. -/
theorem C8_returned_codes_conform_witness :
    conformsToPattern defaultOptions.numericChars defaultOptions.alphanumericChars
      (tokenize (("A#").data)) ['A', '0'] = true :=
  C8_returned_codes_conform (("A#").data) (some 1) defaultOptions (by decide)
    (by decide) (0, 0) zeroStream 2 [['A', '0']] (by decide) ['A', '0'] (by decide)

set_option maxRecDepth 10000 in
/-- Claim C3: for every pattern with no variable-length placeholder (and a
request in the declared domain: `howMany ≥ 1`, sparsity ≥ 1), `generateCodes`
raises a capacity error if and only if
`possiblePermutations - ceil(existingCount * sparsity) < ceil(howMany * sparsity)`,
and when it does, the error carries the requested count, the maximum
`round(possiblePermutations / sparsity)`, the existing count and the sparsity.
In particular, for pattern `"##"` with 95 existing codes and sparsity 1,
requesting 5 succeeds and requesting 6 fails reporting maximum 100. -/
theorem C3_capacity_error_iff :
    (∀ (p : List Char) (hm : ℕ) (o : Options) (s : ℕ → ℕ) (fuel : ℕ),
        countPairMatches '*' '+' p = 0 → countPairMatches '#' '+' p = 0 →
        1 ≤ hm → 1 ≤ o.sparsity →
        ((∃ e, generateCodes p (some hm) o (0, 0) s fuel = GenResult.error e) ↔
            (countNonRepeatingPermutations p o : ℤ) -
                Int.ceil (((o.existingCodesLoader p).dedup.length : ℚ) * o.sparsity) <
              Int.ceil ((hm : ℚ) * o.sparsity)) ∧
          ((countNonRepeatingPermutations p o : ℤ) -
                Int.ceil (((o.existingCodesLoader p).dedup.length : ℚ) * o.sparsity) <
              Int.ceil ((hm : ℚ) * o.sparsity) →
            generateCodes p (some hm) o (0, 0) s fuel =
              GenResult.error (CGError.capacity hm
                (Int.floor ((countNonRepeatingPermutations p o : ℚ) / o.sparsity + 1 / 2))
                (o.existingCodesLoader p).dedup.length o.sparsity))) ∧
      generateCodes (("##").data) (some 5) options95 (0, 0) c3Stream 9 =
        GenResult.ok [['9', '5'], ['9', '6'], ['9', '7'], ['9', '8'], ['9', '9']] ∧
      generateCodes (("##").data) (some 6) options95 (0, 0) c3Stream 9 =
        GenResult.error (CGError.capacity 6 100 95 1) := by
  refine ⟨?_, by decide, by decide⟩
  intro p hm o s fuel hv1 hv2 hhm hsp
  have hmore : (hasMorePlaceholder p (0, 0)).1 = false :=
    hasMorePlaceholder_fst_zero_false p hv1 hv2
  have hclamp : clampSparsity o = o := clampSparsity_of_ge o hsp
  have heff : effectiveHowMany (some hm) = hm := effectiveHowMany_of_pos hhm
  have hsp0 : (0 : ℚ) < o.sparsity := lt_of_lt_of_le one_pos hsp
  have hgen : generateCodes p (some hm) o (0, 0) s fuel =
      match checkRequestedCode p o
          (jsCeilMulNat (o.existingCodesLoader p).dedup.length o.sparsity)
          (jsCeilMulNat hm o.sparsity) hm (o.existingCodesLoader p).dedup.length with
      | some e => GenResult.error e
      | none =>
          genLoop (tokenize p) o [] hm s fuel 0 [] (o.existingCodesLoader p).dedup := by
    simp only [generateCodes, hclamp, heff, hmore, Bool.false_eq_true, if_false]
  have hce : ((jsCeilMulNat (o.existingCodesLoader p).dedup.length o.sparsity : ℕ) : ℤ) =
      Int.ceil (((o.existingCodesLoader p).dedup.length : ℚ) * o.sparsity) := by
    rw [jsCeilMulNat_eq]
    exact Int.toNat_of_nonneg (Int.ceil_nonneg (by positivity))
  have hch : ((jsCeilMulNat hm o.sparsity : ℕ) : ℤ) =
      Int.ceil ((hm : ℚ) * o.sparsity) := by
    rw [jsCeilMulNat_eq]
    exact Int.toNat_of_nonneg (Int.ceil_nonneg (by positivity))
  by_cases hcond : (countNonRepeatingPermutations p o : ℤ) -
      ((jsCeilMulNat (o.existingCodesLoader p).dedup.length o.sparsity : ℕ) : ℤ) <
      ((jsCeilMulNat hm o.sparsity : ℕ) : ℤ)
  · have hck : checkRequestedCode p o
        (jsCeilMulNat (o.existingCodesLoader p).dedup.length o.sparsity)
        (jsCeilMulNat hm o.sparsity) hm (o.existingCodesLoader p).dedup.length =
        some (CGError.capacity hm
          (jsRoundDivNat (countNonRepeatingPermutations p o) o.sparsity)
          (o.existingCodesLoader p).dedup.length o.sparsity) := by
      unfold checkRequestedCode
      simp only
      rw [if_pos hcond]
    rw [hgen, hck]
    constructor
    · constructor
      · intro _
        rw [← hce, ← hch]
        exact hcond
      · intro _
        exact ⟨_, rfl⟩
    · intro _
      rw [jsRoundDivNat_eq _ _ hsp0]
  · have hck : checkRequestedCode p o
        (jsCeilMulNat (o.existingCodesLoader p).dedup.length o.sparsity)
        (jsCeilMulNat hm o.sparsity) hm (o.existingCodesLoader p).dedup.length =
        none := by
      unfold checkRequestedCode
      simp only
      rw [if_neg hcond]
    rw [hgen, hck]
    constructor
    · constructor
      · intro hex
        obtain ⟨e, he⟩ := hex
        exact absurd he (genLoop_ne_error _ _ _ _ _ _ _ _ _ _)
      · intro hclaim
        rw [← hce, ← hch] at hclaim
        exact absurd hclaim hcond
    · intro hclaim
      rw [← hce, ← hch] at hclaim
      exact absurd hclaim hcond

/-- Witness for C3 at a concrete input: pattern `"AB"` (no placeholders) with
`howMany = 1` and the default configuration — the capacity shortfall condition
holds (0 permutations) and the call errors accordingly. -/
theorem C3_capacity_error_iff_witness :
    ((∃ e, generateCodes (("AB").data) (some 1) defaultOptions (0, 0) zeroStream 1 =
          GenResult.error e) ↔
        (countNonRepeatingPermutations (("AB").data) defaultOptions : ℤ) -
            Int.ceil (((defaultOptions.existingCodesLoader
              (("AB").data)).dedup.length : ℚ) * defaultOptions.sparsity) <
          Int.ceil (((1 : ℕ) : ℚ) * defaultOptions.sparsity)) ∧
      ((countNonRepeatingPermutations (("AB").data) defaultOptions : ℤ) -
            Int.ceil (((defaultOptions.existingCodesLoader
              (("AB").data)).dedup.length : ℚ) * defaultOptions.sparsity) <
          Int.ceil (((1 : ℕ) : ℚ) * defaultOptions.sparsity) →
        generateCodes (("AB").data) (some 1) defaultOptions (0, 0) zeroStream 1 =
          GenResult.error (CGError.capacity 1
            (Int.floor ((countNonRepeatingPermutations (("AB").data) defaultOptions : ℚ) /
              defaultOptions.sparsity + 1 / 2))
            (defaultOptions.existingCodesLoader (("AB").data)).dedup.length
            defaultOptions.sparsity)) :=
  C3_capacity_error_iff.1 (("AB").data) 1 defaultOptions zeroStream 1
    (by decide) (by decide) (by decide) (by norm_num [defaultOptions])
